import Mathlib

/-!
Shallow embedding of the role-based admin access-control and invitation
lifecycle subsystem of the errand-mate repository.

Sources embedded here:
- `src/auth.ts`: `checkAndGetUserRole`, `createAdminInvitation`,
  `promoteUserToAdmin`, `demoteAdminToUser`, and the sign-in role
  resolution for new accounts.
- `src/app/models/auth/adminModels.ts`: the invitation pre-save hook,
  `isValid`, and `findValidInvitation`.
- `lib/admin/bootstrap.ts`: `bootstrapSuperAdmin` and
  `checkFirstUserPromotion`.

Modelling conventions: instants are integers (milliseconds); the Mongo
collections become lists carried in an explicit `Sys` state; every
`await`ed store or audit call that can throw is governed by a boolean
fault flag in `Faults`, and a throw transfers control to the enclosing
catch block exactly as in the TypeScript source, keeping whatever
mutations were already persisted.
-/

namespace ErrandMate

inductive Role
  | user
  | admin
  | super_admin
deriving DecidableEq

def Role.toStr : Role → String
  | .user => "user"
  | .admin => "admin"
  | .super_admin => "super_admin"

/-- An account document of the `User` model (`authModel.ts`). The schema
stores emails lowercased and keeps promotion and demotion provenance. -/
structure Account where
  id : String
  email : String
  name : String
  role : Role
  provider : Option String
  isActive : Bool
  promotedBy : Option String
  promotedAt : Option Int
  demotedBy : Option String
  demotedAt : Option Int
  updatedAt : Int
deriving DecidableEq

/-- An `AdminInvitation` document (`adminModels.ts`). -/
structure Invitation where
  email : String
  role : Role
  invitedBy : String
  invitationToken : String
  expiresAt : Int
  isUsed : Bool
  isActive : Bool
  usedAt : Option Int
  revokedBy : Option String
  revokedAt : Option Int
  createdAt : Int
deriving DecidableEq

inductive AuditAction
  | USER_PROMOTED
  | USER_DEMOTED
  | INVITATION_CREATED
  | INVITATION_USED
  | INVITATION_REVOKED
deriving DecidableEq

/-- An `AdminAuditLog` document (`adminModels.ts`). The schema lowercases
`adminEmail`, `targetEmail` and `invitedBy` on write. -/
structure AuditEntry where
  action : AuditAction
  adminEmail : Option String
  targetEmail : Option String
  invitedBy : Option String
  role : Option Role
  timestamp : Int
  ipAddress : Option String
  details : String
deriving DecidableEq

/-- One entry of the in-memory `activeSessions` map of `auth.ts`. -/
structure Session where
  sessionId : String
  userId : String
deriving DecidableEq

/-- The whole mutable state the embedded operations touch: the `users`,
`admininvitations` and `adminauditlogs` collections plus the in-memory
session registry. -/
structure Sys where
  users : List Account
  invitations : List Invitation
  audit : List AuditEntry
  sessions : List Session
deriving DecidableEq

/-- Fault injection: which of the awaited store calls throw. A flag set
to `true` makes the corresponding call raise, which the source catches
in the surrounding try/catch. -/
structure Faults where
  connectFails : Bool
  findFails : Bool
  saveFails : Bool
  createFails : Bool
  updateThrows : Bool
  updateNull : Bool
  auditFails : Bool
deriving DecidableEq

def noFaults : Faults :=
  ⟨false, false, false, false, false, false, false⟩

/-- Faults where only the audit sink is down. -/
def auditOnlyFaults : Faults :=
  ⟨false, false, false, false, false, false, true⟩

/-- Environment configuration read by `bootstrapSuperAdmin`. -/
structure Config where
  superAdminEmail : Option String
  superAdminName : Option String
deriving DecidableEq

/-- JavaScript `toLowerCase()` and the mongoose `lowercase: true`
transform, as a character map over the string data. (`String.toLower`
itself is irreducible in this toolchain, which would block evaluation of
witnesses; this definition is its executable equivalent for the ASCII
emails at hand.) -/
def lowerStr (s : String) : String := ⟨s.data.map Char.toLower⟩

/-- The admin-or-super-admin membership test used by `auth.ts`. -/
def privileged (r : Role) : Bool :=
  r == Role.admin || r == Role.super_admin

/-- `User.findOne({ email: email.toLowerCase() })`. -/
def findUserByEmail (users : List Account) (email : String) : Option Account :=
  users.find? (fun u => u.email == lowerStr email)

/-- `AdminAuditLog.create`: the audit schema lowercases its email fields. -/
def mkAudit (action : AuditAction) (adminEmail targetEmail invitedBy : Option String)
    (role : Option Role) (timestamp : Int) (ipAddress : Option String)
    (details : String) : AuditEntry :=
  { action := action
    adminEmail := adminEmail.map lowerStr
    targetEmail := targetEmail.map lowerStr
    invitedBy := invitedBy.map lowerStr
    role := role
    timestamp := timestamp
    ipAddress := ipAddress
    details := details }

/-- `AdminInvitationSchema.methods.isValid` (`adminModels.ts` lines
322-326): `!isUsed && isActive && expiresAt > now`. -/
def Invitation.isValid (inv : Invitation) (now : Int) : Bool :=
  !inv.isUsed && inv.isActive && decide (inv.expiresAt > now)

/-- `AdminInvitationSchema.statics.findValidInvitation` (`adminModels.ts`
lines 239-252) without a token argument; the inline invitation query of
`checkAndGetUserRole` (`auth.ts` lines 97-102) and of
`createAdminInvitation` (`auth.ts` lines 157-162) uses the same
condition. -/
def findValidInvitation (invs : List Invitation) (email : String) (now : Int) :
    Option Invitation :=
  invs.find? (fun i =>
    i.email == lowerStr email && !i.isUsed && i.isActive && decide (i.expiresAt > now))

/-- The `AdminInvitationSchema` pre-save hook (`adminModels.ts` lines
189-206): deactivate when already expired, default `usedAt` and
`revokedAt`. -/
def preSaveInvitation (inv : Invitation) (now : Int) : Invitation :=
  let inv1 := if inv.expiresAt ≤ now then { inv with isActive := false } else inv
  let inv2 := if inv1.isUsed && inv1.usedAt.isNone then { inv1 with usedAt := some now } else inv1
  if !inv2.isActive && inv2.revokedBy.isSome && inv2.revokedAt.isNone then
    { inv2 with revokedAt := some now }
  else inv2

/-- Marking the found invitation used and saving it (`auth.ts` lines
106-108): the save runs the pre-save hook. -/
def markInvitationUsed (invs : List Invitation) (inv : Invitation) (now : Int) :
    List Invitation :=
  invs.map (fun i =>
    if i.invitationToken == inv.invitationToken then
      preSaveInvitation { inv with isUsed := true, usedAt := some now } now
    else i)

/-- The `INVITATION_USED` audit entry of `checkAndGetUserRole`. -/
def invitationUsedAuditEntry (email invitedBy : String) (role : Role) (now : Int) :
    AuditEntry :=
  mkAudit AuditAction.INVITATION_USED none (some email) (some invitedBy) (some role)
    now none ("Admin invitation used for role: " ++ role.toStr)

/-- `checkAndGetUserRole` (`auth.ts` lines 86-130). On a valid invitation
the document is marked used and saved (running the pre-save hook) and an
`INVITATION_USED` audit entry is written; any throw lands in the catch
block which returns the default role `user` while keeping the mutations
already persisted. This is exactly the role the `signIn` callback
(`auth.ts` line 619) assigns to an email with no existing account. -/
def checkAndGetUserRole (sys : Sys) (f : Faults) (email : String) (now : Int) :
    Role × Sys :=
  if f.connectFails || f.findFails then (Role.user, sys)
  else
    match findUserByEmail sys.users email with
    | some u => (u.role, sys)
    | none =>
      match findValidInvitation sys.invitations email now with
      | none => (Role.user, sys)
      | some inv =>
        if f.saveFails then (Role.user, sys)
        else
          let sys1 := { sys with invitations := markInvitationUsed sys.invitations inv now }
          if f.auditFails then (Role.user, sys1)
          else
            let entry := invitationUsedAuditEntry email inv.invitedBy inv.role now
            (inv.role, { sys1 with audit := sys1.audit ++ [entry] })

structure InviteResult where
  success : Bool
  invitationId : Option String
  error : Option String
deriving DecidableEq

def inviteErr (e : String) : InviteResult :=
  { success := false, invitationId := none, error := some e }

/-- The invitation document built by `createAdminInvitation` (`auth.ts`
lines 172-181); the invitation schema lowercases `email` and `invitedBy`,
and `expiresAt` is `now` advanced by `expirationHours` hours. -/
def newInvitationDoc (inviteeEmail : String) (role : Role) (inviterEmail token : String)
    (expirationHours now : Int) : Invitation :=
  { email := lowerStr inviteeEmail
    role := role
    invitedBy := lowerStr inviterEmail
    invitationToken := token
    expiresAt := now + expirationHours * 3600000
    isUsed := false
    isActive := true
    usedAt := none
    revokedBy := none
    revokedAt := none
    createdAt := now }

/-- The `INVITATION_CREATED` audit entry of `createAdminInvitation`. -/
def invitationCreatedAuditEntry (inviterEmail inviteeEmail : String) (role : Role)
    (ip : Option String) (now : Int) : AuditEntry :=
  mkAudit AuditAction.INVITATION_CREATED (some inviterEmail) (some inviteeEmail) none
    (some role) now ip ("Admin invitation created for role: " ++ role.toStr)

/-- `createAdminInvitation` (`auth.ts` lines 133-202). The random token
and the fresh document id are passed in as parameters. -/
def createAdminInvitation (sys : Sys) (f : Faults) (inviterEmail inviteeEmail : String)
    (role : Role) (expirationHours : Int) (token newId : String)
    (ipAddress : Option String) (now : Int) : InviteResult × Sys :=
  if f.connectFails || f.findFails then (inviteErr "Failed to create invitation", sys)
  else
    match findUserByEmail sys.users inviterEmail with
    | none => (inviteErr "Insufficient permissions to create invitations", sys)
    | some inviter =>
      if !(privileged inviter.role) then
        (inviteErr "Insufficient permissions to create invitations", sys)
      else if role == Role.super_admin && inviter.role != Role.super_admin then
        (inviteErr "Only super admins can create super admin invitations", sys)
      else if (match findUserByEmail sys.users inviteeEmail with
               | some e => privileged e.role
               | none => false) then
        (inviteErr "User already has admin privileges", sys)
      else
        match findValidInvitation sys.invitations inviteeEmail now with
        | some _ => (inviteErr "Active invitation already exists for this email", sys)
        | none =>
          if f.createFails then (inviteErr "Failed to create invitation", sys)
          else
            let inv := preSaveInvitation
              (newInvitationDoc inviteeEmail role inviterEmail token expirationHours now) now
            let sys1 := { sys with invitations := sys.invitations ++ [inv] }
            if f.auditFails then (inviteErr "Failed to create invitation", sys1)
            else
              let entry := invitationCreatedAuditEntry inviterEmail inviteeEmail role ipAddress now
              ({ success := true, invitationId := some newId, error := none },
               { sys1 with audit := sys1.audit ++ [entry] })

structure OpResult where
  success : Bool
  error : Option String
deriving DecidableEq

def opErr (e : String) : OpResult :=
  { success := false, error := some e }

def opOk : OpResult :=
  { success := true, error := none }

/-- The `findOneAndUpdate` update document of `promoteUserToAdmin`
(`auth.ts` lines 237-246), applied to the matching account. -/
def promoteUpdate (u : Account) (adminEmail : String) (newRole : Role) (now : Int) :
    Account :=
  { u with role := newRole, updatedAt := now,
           promotedBy := some adminEmail, promotedAt := some now }

/-- The user collection after `promoteUserToAdmin` updates the target. -/
def promoteUpdatedUsers (users : List Account) (targetEmail adminEmail : String)
    (newRole : Role) (now : Int) : List Account :=
  users.map (fun u =>
    if u.email == lowerStr targetEmail then promoteUpdate u adminEmail newRole now else u)

/-- The `USER_PROMOTED` audit entry of `promoteUserToAdmin`. -/
def promoteAuditEntry (adminEmail targetEmail : String) (oldRole newRole : Role)
    (ip : Option String) (now : Int) : AuditEntry :=
  mkAudit AuditAction.USER_PROMOTED (some adminEmail) (some targetEmail) none
    (some newRole) now ip
    ("User promoted from " ++ oldRole.toStr ++ " to " ++ newRole.toStr)

/-- The `findOneAndUpdate` update document of `demoteAdminToUser`
(`auth.ts` lines 309-318). -/
def demoteUpdate (u : Account) (adminEmail : String) (now : Int) : Account :=
  { u with role := Role.user, updatedAt := now,
           demotedBy := some adminEmail, demotedAt := some now }

/-- The user collection after `demoteAdminToUser` updates the target. -/
def demoteUpdatedUsers (users : List Account) (targetEmail adminEmail : String)
    (now : Int) : List Account :=
  users.map (fun u =>
    if u.email == lowerStr targetEmail then demoteUpdate u adminEmail now else u)

/-- The `USER_DEMOTED` audit entry of `demoteAdminToUser`. -/
def demoteAuditEntry (adminEmail targetEmail : String) (oldRole : Role)
    (ip : Option String) (now : Int) : AuditEntry :=
  mkAudit AuditAction.USER_DEMOTED (some adminEmail) (some targetEmail) none
    (some Role.user) now ip
    ("User demoted from " ++ oldRole.toStr ++ " to user")

/-- `invalidateUserSessions` (`auth.ts` lines 430-442): drop every session
belonging to the given principal id. -/
def sessionsWithout (sessions : List Session) (userId : String) : List Session :=
  sessions.filter (fun s => s.userId != userId)

/-- `promoteUserToAdmin` (`auth.ts` lines 204-270). -/
def promoteUserToAdmin (sys : Sys) (f : Faults) (adminEmail targetEmail : String)
    (newRole : Role) (ipAddress : Option String) (now : Int) : OpResult × Sys :=
  if f.connectFails || f.findFails then (opErr "Failed to promote user", sys)
  else
    match findUserByEmail sys.users adminEmail with
    | none => (opErr "Insufficient permissions to promote users", sys)
    | some promoter =>
      if !(privileged promoter.role) then
        (opErr "Insufficient permissions to promote users", sys)
      else if newRole == Role.super_admin && promoter.role != Role.super_admin then
        (opErr "Only super admins can promote to super admin", sys)
      else
        match findUserByEmail sys.users targetEmail with
        | none => (opErr "Target user not found", sys)
        | some targetUser =>
          if targetUser.role == newRole then
            (opErr ("User already has " ++ newRole.toStr ++ " role"), sys)
          else if lowerStr adminEmail == lowerStr targetEmail && newRole == Role.super_admin then
            (opErr "Cannot promote yourself to super admin", sys)
          else if f.updateThrows then (opErr "Failed to promote user", sys)
          else if f.updateNull then (opErr "Failed to update user role", sys)
          else
            let sys1 :=
              { sys with users := promoteUpdatedUsers sys.users targetEmail adminEmail newRole now }
            if f.auditFails then (opErr "Failed to promote user", sys1)
            else
              let entry := promoteAuditEntry adminEmail targetEmail targetUser.role newRole
                ipAddress now
              let sys2 := { sys1 with audit := sys1.audit ++ [entry] }
              let sys3 := { sys2 with sessions := sessionsWithout sys2.sessions targetUser.id }
              (opOk, sys3)

/-- `demoteAdminToUser` (`auth.ts` lines 272-342). -/
def demoteAdminToUser (sys : Sys) (f : Faults) (adminEmail targetEmail : String)
    (ipAddress : Option String) (now : Int) : OpResult × Sys :=
  if f.connectFails || f.findFails then (opErr "Failed to demote user", sys)
  else
    match findUserByEmail sys.users adminEmail with
    | none => (opErr "Insufficient permissions to demote users", sys)
    | some demoter =>
      if !(privileged demoter.role) then
        (opErr "Insufficient permissions to demote users", sys)
      else
        match findUserByEmail sys.users targetEmail with
        | none => (opErr "Target user not found", sys)
        | some targetUser =>
          if lowerStr adminEmail == lowerStr targetEmail
              && targetUser.role == Role.super_admin
              && sys.users.countP (fun u => u.role == Role.super_admin) ≤ 1 then
            (opErr "Cannot demote yourself as the only super admin", sys)
          else if targetUser.role == Role.super_admin && demoter.role != Role.super_admin then
            (opErr "Only super admins can demote super admins", sys)
          else if targetUser.role == Role.user then
            (opErr "User is already a regular user", sys)
          else if f.updateThrows then (opErr "Failed to demote user", sys)
          else if f.updateNull then (opErr "Failed to update user role", sys)
          else
            let sys1 :=
              { sys with users := demoteUpdatedUsers sys.users targetEmail adminEmail now }
            if f.auditFails then (opErr "Failed to demote user", sys1)
            else
              let entry := demoteAuditEntry adminEmail targetEmail targetUser.role
                ipAddress now
              let sys2 := { sys1 with audit := sys1.audit ++ [entry] }
              let sys3 := { sys2 with sessions := sessionsWithout sys2.sessions targetUser.id }
              (opOk, sys3)

/-- The super-admin account created by the creation branch of
`bootstrapSuperAdmin` (`bootstrap.ts` lines 43-51). -/
def bootAccount (newId email : String) (nameOpt : Option String) (now : Int) : Account :=
  { id := newId
    email := lowerStr email
    name := nameOpt.getD "Super Admin"
    role := Role.super_admin
    provider := some "credentials"
    isActive := true
    promotedBy := some "system"
    promotedAt := some now
    demotedBy := none
    demotedAt := none
    updatedAt := now }

/-- The mutation the promotion branch of `bootstrapSuperAdmin`
(`bootstrap.ts` lines 33-40) saves on the matching account. -/
def bootPromotedAccount (v : Account) (now : Int) : Account :=
  { v with role := Role.super_admin, promotedBy := some "system",
           promotedAt := some now, updatedAt := now }

/-- The user collection after the promotion branch of
`bootstrapSuperAdmin` saves the matching account. -/
def bootUpdatedUsers (users : List Account) (email : String) (now : Int) : List Account :=
  users.map (fun v =>
    if v.email == lowerStr email then bootPromotedAccount v now else v)

/-- The `USER_PROMOTED` audit entry written by `bootstrapSuperAdmin`. -/
def bootAuditEntry (email : String) (now : Int) : AuditEntry :=
  mkAudit AuditAction.USER_PROMOTED (some "system") (some email) none
    (some Role.super_admin) now none
    "Super admin bootstrapped from environment variables"

/-- `bootstrapSuperAdmin` (`lib/admin/bootstrap.ts` lines 11-69). The
fresh document id for the creation branch is passed in. Returns only the
new state, as the source returns `void`. -/
def bootstrapSuperAdmin (sys : Sys) (f : Faults) (cfg : Config) (newId : String)
    (now : Int) : Sys :=
  if f.connectFails then sys
  else
    match cfg.superAdminEmail with
    | none => sys
    | some superAdminEmail =>
      if f.findFails then sys
      else if (sys.users.find? (fun u => u.role == Role.super_admin)).isSome then sys
      else
        match findUserByEmail sys.users superAdminEmail with
        | some _ =>
          if f.saveFails then sys
          else
            let sys1 := { sys with users := bootUpdatedUsers sys.users superAdminEmail now }
            if f.auditFails then sys1
            else { sys1 with audit := sys1.audit ++ [bootAuditEntry superAdminEmail now] }
        | none =>
          if f.createFails then sys
          else
            let newUser := bootAccount newId superAdminEmail cfg.superAdminName now
            let sys1 := { sys with users := sys.users ++ [newUser] }
            if f.auditFails then sys1
            else { sys1 with audit := sys1.audit ++ [bootAuditEntry superAdminEmail now] }

/-- `checkFirstUserPromotion` (`lib/admin/bootstrap.ts` lines 75-102).
Defined in the source but invoked by no caller in the repository, in
particular not by the sign-in path. -/
def checkFirstUserPromotion (sys : Sys) (f : Faults) (userEmail : String) (now : Int) :
    Role × Sys :=
  if f.connectFails || f.findFails then (Role.user, sys)
  else if sys.users.length == 0 then
    if f.auditFails then (Role.user, sys)
    else
      let entry := mkAudit AuditAction.USER_PROMOTED (some "system") (some userEmail)
        none (some Role.super_admin) now none "First user auto-promoted to super admin"
      (Role.super_admin, { sys with audit := sys.audit ++ [entry] })
  else (Role.user, sys)

/-- Modelled from the spec: the four-branch strict-order role resolution
that §4.5 of the specification claims the sign-in path performs for an
email with no existing account (bootstrap, then first-user, then
invitation, then default). Written from the words of the claim, to be
compared with `checkAndGetUserRole`, which is what the sign-in path
actually calls. -/
def claimedSignInRole (cfg : Config) (sys : Sys) (email : String) (now : Int) : Role :=
  if (match cfg.superAdminEmail with
      | some b => lowerStr b == lowerStr email
      | none => false)
      && !(sys.users.any (fun u => u.role == Role.super_admin)) then
    Role.super_admin
  else if sys.users.isEmpty then Role.super_admin
  else
    match findValidInvitation sys.invitations email now with
    | some inv => inv.role
    | none => Role.user

/-! Concrete fixtures used by witnesses and counterexamples. -/

def uSuperA : Account :=
  ⟨"1", "a@x", "A", Role.super_admin, some "credentials", true, none, none, none, none, 0⟩

def uPlainB : Account :=
  ⟨"2", "b@x", "B", Role.user, some "credentials", true, none, none, none, none, 0⟩

def uAdminB : Account :=
  ⟨"2", "b@x", "B", Role.admin, some "credentials", true, none, none, none, none, 0⟩

def uSuperC : Account :=
  ⟨"3", "c@x", "C", Role.super_admin, some "credentials", true, none, none, none, none, 0⟩

def invForD : Invitation :=
  ⟨"d@x", Role.admin, "a@x", "tokD", 1000, false, true, none, none, none, 0⟩

def emptySys : Sys := ⟨[], [], [], []⟩

def sysSuperOnly : Sys := ⟨[uSuperA], [], [], []⟩

def sysSuperPlain : Sys := ⟨[uSuperA, uPlainB], [], [], []⟩

def sysSuperAdmin2 : Sys := ⟨[uSuperA, uAdminB], [], [], []⟩

def sysTwoSupers : Sys := ⟨[uSuperA, uSuperC], [], [], []⟩

def sysWithInvite : Sys := ⟨[uSuperA], [invForD], [], []⟩

end ErrandMate
namespace ErrandMate

/-! Helper lemmas shared by several claim proofs. -/

theorem countP_split {α : Type} (l : List α) (p q : α → Bool) :
    l.countP p
      = l.countP (fun x => q x && p x) + l.countP (fun x => !q x && p x) := by
  induction l with
  | nil => simp
  | cons a t ih =>
    simp only [List.countP_cons]
    cases hq : q a <;> cases hp : p a <;> simp [hq, hp] <;> omega

theorem two_le_countP {α : Type} (l : List α) (p : α → Bool) (x y : α)
    (hx : x ∈ l) (hy : y ∈ l) (hxy : x ≠ y) (hpx : p x = true) (hpy : p y = true) :
    2 ≤ l.countP p := by
  induction l with
  | nil => cases hx
  | cons a t ih =>
    rcases List.mem_cons.mp hx with rfl | hx2
    · rcases List.mem_cons.mp hy with h | hy2
      · exact absurd h.symm hxy
      · have h1 : 0 < t.countP p := List.countP_pos_iff.mpr ⟨y, hy2, hpy⟩
        rw [List.countP_cons_of_pos _ _ hpx]
        omega
    · rcases List.mem_cons.mp hy with rfl | hy2
      · have h1 : 0 < t.countP p := List.countP_pos_iff.mpr ⟨x, hx2, hpx⟩
        rw [List.countP_cons_of_pos _ _ hpy]
        omega
      · have h2 := ih hx2 hy2
        rw [List.countP_cons]
        split <;> omega

theorem find?_map_email (users : List Account) (g : Account → Account)
    (hg : ∀ u, (g u).email = u.email) (x : String) :
    findUserByEmail (users.map g) x = (findUserByEmail users x).map g := by
  unfold findUserByEmail
  rw [List.find?_map]
  have hfun : ((fun u : Account => u.email == lowerStr x) ∘ g)
      = (fun u : Account => u.email == lowerStr x) := by
    funext u
    simp [Function.comp, hg]
  rw [hfun]

theorem preSaveInvitation_fields (inv : Invitation) (now : Int) :
    (preSaveInvitation inv now).isUsed = inv.isUsed
    ∧ (preSaveInvitation inv now).expiresAt = inv.expiresAt
    ∧ (preSaveInvitation inv now).role = inv.role
    ∧ (preSaveInvitation inv now).email = inv.email
    ∧ (inv.expiresAt ≤ now → (preSaveInvitation inv now).isActive = false) := by
  simp only [preSaveInvitation]
  split <;> split <;> split <;> simp_all

/-- Claim C2: an invitation is consumable iff it is unused, active, and
strictly before its expiry; `findValidInvitation` accepts exactly the
invitations whose lowercased email matches and which satisfy `isValid`;
and expiry is lazy: an invitation at or past `expiresAt` is not
consumable even while its `isUsed` and `isActive` flags are untouched. -/
theorem c2_consumable_iff (i : Invitation) (now : Int) (invs : List Invitation)
    (email : String) :
    (i.isValid now = true ↔ (i.isUsed = false ∧ i.isActive = true ∧ now < i.expiresAt))
    ∧ ((findValidInvitation invs email now).isSome ↔
        ∃ j ∈ invs, j.email = lowerStr email ∧ j.isValid now = true)
    ∧ (i.expiresAt ≤ now → i.isUsed = false → i.isActive = true → i.isValid now = false) := by
  refine ⟨?_, ?_, ?_⟩
  · simp [Invitation.isValid, and_assoc]
  · simp only [findValidInvitation, List.find?_isSome, Invitation.isValid]
    constructor
    · rintro ⟨j, hj, hp⟩
      simp only [Bool.and_eq_true, beq_iff_eq, decide_eq_true_eq] at hp
      exact ⟨j, hj, hp.1.1.1, by simp [hp.1.1.2, hp.1.2, hp.2]⟩
    · rintro ⟨j, hj, he, hv⟩
      simp only [Bool.and_eq_true, Bool.not_eq_true', decide_eq_true_eq] at hv
      exact ⟨j, hj, by simp [he, hv.1.1, hv.1.2, hv.2]⟩
  · intro h _ _
    simp only [Invitation.isValid]
    have : ¬ (i.expiresAt > now) := by omega
    simp [this]

/-- Witness for C2: a concrete invitation whose expiry has passed is not
consumable although its flags are in their original state. -/
theorem c2_consumable_iff_witness :
    Invitation.isValid ⟨"d@x", Role.admin, "a@x", "tokD", 1000, false, true, none, none, none, 0⟩ 1000 = false :=
  (c2_consumable_iff ⟨"d@x", Role.admin, "a@x", "tokD", 1000, false, true, none, none, none, 0⟩ 1000 [] "d@x").2.2
    (by decide) (by decide) (by decide)

/-- Claim C10: the pre-save hook forces any invitation whose expiry is at
or before the save instant to be inactive, so no invitation is persisted
active-and-already-expired as of its most recent save; in particular
`createAdminInvitation` with a non-positive `expirationHours` persists
the new invitation already inactive. -/
theorem c10_expired_creation_inactive (sys : Sys)
    (inviterEmail inviteeEmail token newId : String) (role : Role) (hrs now : Int)
    (ip : Option String) (inviter : Account)
    (hfind : findUserByEmail sys.users inviterEmail = some inviter)
    (hpriv : privileged inviter.role = true)
    (hsup : role = Role.super_admin → inviter.role = Role.super_admin)
    (hinvitee : ∀ e, findUserByEmail sys.users inviteeEmail = some e → privileged e.role = false)
    (hnodup : findValidInvitation sys.invitations inviteeEmail now = none)
    (hhrs : hrs ≤ 0) :
    (∀ (j : Invitation) (t : Int), j.expiresAt ≤ t → (preSaveInvitation j t).isActive = false)
    ∧ (createAdminInvitation sys noFaults inviterEmail inviteeEmail role hrs token newId ip now).2.invitations
        = sys.invitations
          ++ [preSaveInvitation (newInvitationDoc inviteeEmail role inviterEmail token hrs now) now]
    ∧ (preSaveInvitation (newInvitationDoc inviteeEmail role inviterEmail token hrs now) now).isActive
        = false := by
  have hsc : (role == Role.super_admin && inviter.role != Role.super_admin) = false := by
    by_cases h : role = Role.super_admin
    · simp [h, hsup h]
    · simp [h]
  refine ⟨fun j t h => (preSaveInvitation_fields j t).2.2.2.2 h, ?_, ?_⟩
  · rcases hfe : findUserByEmail sys.users inviteeEmail with _ | e
    · simp [createAdminInvitation, noFaults, hfind, hpriv, hsc, hfe, hnodup]
    · have he := hinvitee e hfe
      simp [createAdminInvitation, noFaults, hfind, hpriv, hsc, hfe, he, hnodup]
  · have hex : (newInvitationDoc inviteeEmail role inviterEmail token hrs now).expiresAt ≤ now := by
      have h1 : (newInvitationDoc inviteeEmail role inviterEmail token hrs now).expiresAt
          = now + hrs * 3600000 := rfl
      rw [h1]
      omega
    exact (preSaveInvitation_fields _ _).2.2.2.2 hex

/-- Witness for C10 at a concrete zero-hour invitation creation. -/
theorem c10_expired_creation_inactive_witness :
    (createAdminInvitation sysSuperOnly noFaults "a@x" "d@x" Role.admin 0 "tokW" "idW" none 100).2.invitations
      = sysSuperOnly.invitations
        ++ [preSaveInvitation (newInvitationDoc "d@x" Role.admin "a@x" "tokW" 0 100) 100]
    ∧ (preSaveInvitation (newInvitationDoc "d@x" Role.admin "a@x" "tokW" 0 100) 100).isActive = false := by
  have hnone : findUserByEmail sysSuperOnly.users "d@x" = none := by decide
  have h := c10_expired_creation_inactive sysSuperOnly "a@x" "d@x" "tokW" "idW" Role.admin 0 100
    none uSuperA (by decide) (by decide) (fun hr => absurd hr (by decide))
    (fun e he => by rw [hnone] at he; exact Option.noConfusion he)
    (by decide) (by decide)
  exact ⟨h.2.1, h.2.2⟩

/-- Counterexample to claim C1 as stated: with an empty account store, no
configured bootstrap email and no invitation, the claimed strict-order
resolution makes the first sign-in a `super_admin` (first-user branch),
but the code assigns the default role `user`: the sign-in path does not
evaluate the bootstrap or first-user branches. -/
theorem c1_counterexample :
    (checkAndGetUserRole ⟨[], [], [], []⟩ noFaults "alice@x" 0).1 = Role.user
    ∧ claimedSignInRole ⟨none, none⟩ ⟨[], [], [], []⟩ "alice@x" 0 = Role.super_admin
    ∧ Role.user ≠ Role.super_admin := by
  refine ⟨by decide, by decide, by decide⟩

/-- Claim C1 (amended): for a successful sign-in of an email with no
existing account record, the role is resolved by the first valid
invitation for the email when one exists, and is the default `user`
otherwise; the bootstrap branch lives in the separate process-start
routine `bootstrapSuperAdmin` and the first-user branch
(`checkFirstUserPromotion`) is invoked by no caller, so neither
participates in sign-in role resolution. -/
theorem c1_sign_in_role_resolution (sys : Sys) (email : String) (now : Int)
    (hnew : findUserByEmail sys.users email = none) :
    (findValidInvitation sys.invitations email now = none →
      (checkAndGetUserRole sys noFaults email now).1 = Role.user)
    ∧ (∀ inv, findValidInvitation sys.invitations email now = some inv →
      (checkAndGetUserRole sys noFaults email now).1 = inv.role) := by
  constructor
  · intro h
    simp [checkAndGetUserRole, noFaults, hnew, h]
  · intro inv h
    simp [checkAndGetUserRole, noFaults, hnew, h]

/-- Witness for C1 (amended) at a concrete state holding one valid
invitation for the signing-in email. -/
theorem c1_sign_in_role_resolution_witness :
    (checkAndGetUserRole sysWithInvite noFaults "d@x" 10).1 = Role.admin :=
  (c1_sign_in_role_resolution sysWithInvite "d@x" 10 (by decide)).2 invForD (by decide)

/-- Counterexample to claim C5 as stated: when the actor already holds
`super_admin`, the self-promotion call is rejected by the earlier
role-equality check with the no-op-role error, not with the dedicated
self-promotion error. -/
theorem c5_counterexample :
    (promoteUserToAdmin sysSuperOnly noFaults "a@x" "a@x" Role.super_admin none 0).1.error
      = some "User already has super_admin role"
    ∧ (promoteUserToAdmin sysSuperOnly noFaults "a@x" "a@x" Role.super_admin none 0).1.success = false
    ∧ some "User already has super_admin role" ≠ some "Cannot promote yourself to super admin" := by
  refine ⟨by decide, by decide, by decide⟩

/-- Claim C5 (amended): self-promotion to `super_admin` is always
rejected, with no role change, audit entry, or session invalidation; but
when the actor already holds `super_admin` the rejection carries the
no-op-role error (the dedicated self-promotion error is unreachable,
because the actor and the target resolve to the same account). -/
theorem c5_self_promotion_always_rejected (sys : Sys) (f : Faults) (a : String)
    (ip : Option String) (now : Int) :
    (promoteUserToAdmin sys f a a Role.super_admin ip now).1.success = false
    ∧ (promoteUserToAdmin sys f a a Role.super_admin ip now).2 = sys := by
  unfold promoteUserToAdmin
  split
  · exact ⟨rfl, rfl⟩
  split
  · exact ⟨rfl, rfl⟩
  next promoter hfind =>
  split
  · exact ⟨rfl, rfl⟩
  split
  · exact ⟨rfl, rfl⟩
  next hsup =>
  split
  · exact ⟨rfl, rfl⟩
  next target htfind =>
  split
  · exact ⟨rfl, rfl⟩
  next hne =>
  exfalso
  injection htfind with he
  subst he
  simp only [beq_self_eq_true, Bool.true_and, bne, Bool.not_eq_true', beq_eq_false_iff_ne,
    ne_eq, Decidable.not_not] at hsup
  exact hne (by simp [hsup])


/-- Claim C3: whenever a valid (unused, active, unexpired) invitation
already exists for the invitee email, `createAdminInvitation` fails, it
persists no new invitation, and it writes no audit entry (the state is
returned untouched); under the remaining preconditions the reported
error is precisely the duplicate-invitation one. -/
theorem c3_duplicate_invitation_rejected (sys : Sys) (f : Faults)
    (inviterEmail inviteeEmail : String) (role : Role) (hrs : Int)
    (token newId : String) (ip : Option String) (now : Int)
    (hdup : (findValidInvitation sys.invitations inviteeEmail now).isSome = true) :
    (createAdminInvitation sys f inviterEmail inviteeEmail role hrs token newId ip now).1.success = false
    ∧ (createAdminInvitation sys f inviterEmail inviteeEmail role hrs token newId ip now).2 = sys
    ∧ (∀ inviter, f = noFaults →
        findUserByEmail sys.users inviterEmail = some inviter →
        privileged inviter.role = true →
        (role = Role.super_admin → inviter.role = Role.super_admin) →
        (∀ e, findUserByEmail sys.users inviteeEmail = some e → privileged e.role = false) →
        (createAdminInvitation sys f inviterEmail inviteeEmail role hrs token newId ip now).1.error
          = some "Active invitation already exists for this email") := by
  obtain ⟨inv, hinv⟩ := Option.isSome_iff_exists.mp hdup
  have key : ∃ e, createAdminInvitation sys f inviterEmail inviteeEmail role hrs token newId ip now
      = (inviteErr e, sys) := by
    unfold createAdminInvitation
    split
    · exact ⟨_, rfl⟩
    split
    · exact ⟨_, rfl⟩
    next inviter hfi =>
    split
    · exact ⟨_, rfl⟩
    split
    · exact ⟨_, rfl⟩
    split
    · exact ⟨_, rfl⟩
    split
    · exact ⟨_, rfl⟩
    next heq =>
    exact absurd (hinv.symm.trans heq) (by simp)
  obtain ⟨e, he⟩ := key
  refine ⟨by rw [he]; rfl, by rw [he], ?_⟩
  intro inviter hf hfi hpriv hsup hinvitee
  subst hf
  have hsc : (role == Role.super_admin && inviter.role != Role.super_admin) = false := by
    by_cases h : role = Role.super_admin
    · simp [h, hsup h]
    · simp [h]
  rcases hfe : findUserByEmail sys.users inviteeEmail with _ | e2
  · simp [createAdminInvitation, noFaults, hfi, hpriv, hsc, hfe, hinv, inviteErr]
  · have he2 := hinvitee e2 hfe
    simp [createAdminInvitation, noFaults, hfi, hpriv, hsc, hfe, he2, hinv, inviteErr]

/-- Witness for C3 at a concrete state already holding a valid invitation
for the invitee. -/
theorem c3_duplicate_invitation_rejected_witness :
    (createAdminInvitation sysWithInvite noFaults "a@x" "d@x" Role.admin 72 "tokN" "idN" none 10).1.success = false
    ∧ (createAdminInvitation sysWithInvite noFaults "a@x" "d@x" Role.admin 72 "tokN" "idN" none 10).2 = sysWithInvite
    ∧ (createAdminInvitation sysWithInvite noFaults "a@x" "d@x" Role.admin 72 "tokN" "idN" none 10).1.error
        = some "Active invitation already exists for this email" := by
  have hnone : findUserByEmail sysWithInvite.users "d@x" = none := by decide
  have h := c3_duplicate_invitation_rejected sysWithInvite noFaults "a@x" "d@x" Role.admin 72
    "tokN" "idN" none 10 (by decide)
  exact ⟨h.1, h.2.1, h.2.2 uSuperA rfl (by decide) (by decide)
    (fun hr => absurd hr (by decide))
    (fun e he => by rw [hnone] at he; exact Option.noConfusion he)⟩

/-- Forward evaluation of `promoteUserToAdmin` once all its checks pass:
the target row is updated, then either the audit write throws (outcome
surfaced as a generic failure, role change kept, sessions untouched) or
the audit entry is appended and the target sessions are dropped. -/
theorem promoteUserToAdmin_run (sys : Sys) (f : Faults) (ae te : String) (r : Role)
    (ip : Option String) (now : Int) (promoter targetUser : Account)
    (hp : findUserByEmail sys.users ae = some promoter)
    (hpriv : privileged promoter.role = true)
    (hsup : r = Role.super_admin → promoter.role = Role.super_admin)
    (ht : findUserByEmail sys.users te = some targetUser)
    (hne : targetUser.role ≠ r)
    (hself : ¬(lowerStr ae = lowerStr te ∧ r = Role.super_admin))
    (hf1 : f.connectFails = false) (hf2 : f.findFails = false)
    (hf3 : f.updateThrows = false) (hf4 : f.updateNull = false) :
    promoteUserToAdmin sys f ae te r ip now
      = (if f.auditFails then
           (opErr "Failed to promote user",
            { sys with users := promoteUpdatedUsers sys.users te ae r now })
         else
           (opOk,
            { users := promoteUpdatedUsers sys.users te ae r now
              invitations := sys.invitations
              audit := sys.audit ++ [promoteAuditEntry ae te targetUser.role r ip now]
              sessions := sessionsWithout sys.sessions targetUser.id })) := by
  have hroleq : (targetUser.role == r) = false := by simp [hne]
  have hselfb : (lowerStr ae == lowerStr te && r == Role.super_admin) = false := by
    by_cases h1 : lowerStr ae = lowerStr te
    · by_cases h2 : r = Role.super_admin
      · exact absurd ⟨h1, h2⟩ hself
      · simp [h2]
    · simp [h1]
  have hsc : (r == Role.super_admin && promoter.role != Role.super_admin) = false := by
    by_cases h : r = Role.super_admin
    · simp [h, hsup h]
    · simp [h]
  rcases Bool.eq_false_or_eq_true f.auditFails with hb | hb <;>
    simp [promoteUserToAdmin, hp, ht, hpriv, hsc, hroleq, hselfb, hf1, hf2, hf3, hf4, hb]

/-- Forward evaluation of `demoteAdminToUser` once all its checks pass. -/
theorem demoteAdminToUser_run (sys : Sys) (f : Faults) (ae te : String)
    (ip : Option String) (now : Int) (demoter targetUser : Account)
    (hd : findUserByEmail sys.users ae = some demoter)
    (hpriv : privileged demoter.role = true)
    (ht : findUserByEmail sys.users te = some targetUser)
    (hself : ¬(lowerStr ae = lowerStr te ∧ targetUser.role = Role.super_admin
      ∧ sys.users.countP (fun v => v.role == Role.super_admin) ≤ 1))
    (hsd : targetUser.role = Role.super_admin → demoter.role = Role.super_admin)
    (hnu : targetUser.role ≠ Role.user)
    (hf1 : f.connectFails = false) (hf2 : f.findFails = false)
    (hf3 : f.updateThrows = false) (hf4 : f.updateNull = false) :
    demoteAdminToUser sys f ae te ip now
      = (if f.auditFails then
           (opErr "Failed to demote user",
            { sys with users := demoteUpdatedUsers sys.users te ae now })
         else
           (opOk,
            { users := demoteUpdatedUsers sys.users te ae now
              invitations := sys.invitations
              audit := sys.audit ++ [demoteAuditEntry ae te targetUser.role ip now]
              sessions := sessionsWithout sys.sessions targetUser.id })) := by
  have hroleq : (targetUser.role == Role.user) = false := by simp [hnu]
  have hselfb : (lowerStr ae == lowerStr te && targetUser.role == Role.super_admin
      && decide (sys.users.countP (fun v => v.role == Role.super_admin) ≤ 1)) = false := by
    by_cases h1 : lowerStr ae = lowerStr te
    · by_cases h2 : targetUser.role = Role.super_admin
      · by_cases h3 : sys.users.countP (fun v => v.role == Role.super_admin) ≤ 1
        · exact absurd ⟨h1, h2, h3⟩ hself
        · simp [h3]
      · simp [h2]
    · simp [h1]
  have hsdb : (targetUser.role == Role.super_admin && demoter.role != Role.super_admin) = false := by
    by_cases h : targetUser.role = Role.super_admin
    · simp [h, hsd h]
    · simp [h]
  rcases Bool.eq_false_or_eq_true f.auditFails with hb | hb <;>
    simp [demoteAdminToUser, hd, ht, hpriv, hsdb, hroleq, hselfb, hf1, hf2, hf3, hf4, hb]

/-- Inversion of a successful `demoteAdminToUser` call: success implies
every guard of the source passed and no fault fired before the update. -/
theorem demote_success_inversion (sys : Sys) (f : Faults) (ae te : String)
    (ip : Option String) (now : Int)
    (h : (demoteAdminToUser sys f ae te ip now).1.success = true) :
    ∃ demoter targetUser,
      findUserByEmail sys.users ae = some demoter
      ∧ findUserByEmail sys.users te = some targetUser
      ∧ privileged demoter.role = true
      ∧ (lowerStr ae = lowerStr te ∧ targetUser.role = Role.super_admin →
          2 ≤ sys.users.countP (fun v => v.role == Role.super_admin))
      ∧ (targetUser.role = Role.super_admin → demoter.role = Role.super_admin)
      ∧ targetUser.role ≠ Role.user
      ∧ f.connectFails = false ∧ f.findFails = false ∧ f.updateThrows = false
      ∧ f.updateNull = false := by
  unfold demoteAdminToUser at h
  split at h
  · exact absurd h (by simp [opErr])
  next hcf =>
  split at h
  · exact absurd h (by simp [opErr])
  next demoter hd =>
  split at h
  · exact absurd h (by simp [opErr])
  next hpriv =>
  split at h
  · exact absurd h (by simp [opErr])
  next targetUser ht =>
  split at h
  · exact absurd h (by simp [opErr])
  next hself =>
  split at h
  · exact absurd h (by simp [opErr])
  next hsd =>
  split at h
  · exact absurd h (by simp [opErr])
  next hnu =>
  split at h
  · exact absurd h (by simp [opErr])
  next hut =>
  split at h
  · exact absurd h (by simp [opErr])
  next hun =>
  simp only [Bool.or_eq_true, not_or, Bool.not_eq_true] at hcf
  simp only [Bool.not_eq_true', Bool.not_eq_false] at hpriv
  refine ⟨demoter, targetUser, hd, ht, hpriv, ?_, ?_, ?_,
    hcf.1, hcf.2, by simpa using hut, by simpa using hun⟩
  · rintro ⟨h1, h2⟩
    by_contra hc
    push_neg at hc
    exact hself (by simp [h1, h2]; omega)
  · intro h1
    by_contra hc
    exact hsd (by simp [h1, hc])
  · intro h1
    exact hnu (by simp [h1])

/-- Claim C4: self-demotion of a `super_admin` is rejected without any
state change when the super-admin count is at most one, is permitted
when that count is at least two, and more generally a successful demote
never brings the super-admin count from positive to zero (assuming the
unique-email index, stated as at most one account per target email). -/
theorem c4_sole_super_admin_lockout (sys : Sys) (a : String) (u : Account)
    (ip : Option String) (now : Int)
    (hu : findUserByEmail sys.users a = some u)
    (hrole : u.role = Role.super_admin) :
    (sys.users.countP (fun v => v.role == Role.super_admin) ≤ 1 →
       demoteAdminToUser sys noFaults a a ip now
         = (opErr "Cannot demote yourself as the only super admin", sys))
    ∧ (2 ≤ sys.users.countP (fun v => v.role == Role.super_admin) →
       (demoteAdminToUser sys noFaults a a ip now).1.success = true)
    ∧ (∀ (sys2 : Sys) (f : Faults) (ae te : String) (ip2 : Option String) (t2 : Int),
        sys2.users.countP (fun v => v.email == lowerStr te) ≤ 1 →
        1 ≤ sys2.users.countP (fun v => v.role == Role.super_admin) →
        (demoteAdminToUser sys2 f ae te ip2 t2).1.success = true →
        1 ≤ (demoteAdminToUser sys2 f ae te ip2 t2).2.users.countP
              (fun v => v.role == Role.super_admin)) := by
  refine ⟨?_, ?_, ?_⟩
  · intro hc
    simp [demoteAdminToUser, noFaults, hu, hrole, privileged, hc]
  · intro hc
    have hself : ¬(lowerStr a = lowerStr a ∧ u.role = Role.super_admin
        ∧ sys.users.countP (fun v => v.role == Role.super_admin) ≤ 1) := by
      rintro ⟨_, _, h3⟩
      omega
    rw [demoteAdminToUser_run sys noFaults a a ip now u u hu (by simp [hrole, privileged]) hu
      hself (fun _ => hrole) (by simp [hrole]) rfl rfl rfl rfl]
    simp [noFaults, opOk]
  · intro sys2 f ae te ip2 t2 hte hbefore hsucc
    obtain ⟨demoter, targetUser, hd, ht, hpriv, hcount, hsd, hnu, hc1, hc2, hc3, hc4⟩ :=
      demote_success_inversion sys2 f ae te ip2 t2 hsucc
    have htmem : targetUser ∈ sys2.users := List.mem_of_find?_eq_some ht
    have htemail : targetUser.email = lowerStr te := by
      have := List.find?_some ht
      simpa using this
    have hrun := demoteAdminToUser_run sys2 f ae te ip2 t2 demoter targetUser hd hpriv ht
      (by rintro ⟨h1, h2, h3⟩; have := hcount ⟨h1, h2⟩; omega) hsd hnu hc1 hc2 hc3 hc4
    rw [hrun]
    have husers : (if f.auditFails then
           (opErr "Failed to demote user",
            { sys2 with users := demoteUpdatedUsers sys2.users te ae t2 })
         else
           (opOk,
            ({ users := demoteUpdatedUsers sys2.users te ae t2
               invitations := sys2.invitations
               audit := sys2.audit ++ [demoteAuditEntry ae te targetUser.role ip2 t2]
               sessions := sessionsWithout sys2.sessions targetUser.id } : Sys))).2.users
        = demoteUpdatedUsers sys2.users te ae t2 := by
      split <;> rfl
    rw [husers]
    have hexists : ∃ v ∈ sys2.users, (v.email == lowerStr te) = false
        ∧ v.role = Role.super_admin := by
      by_cases hsupT : targetUser.role = Role.super_admin
      · have hdsup := hsd hsupT
        by_cases hae : lowerStr ae = lowerStr te
        · have h2c := hcount ⟨hae, hsupT⟩
          have hsplit := countP_split sys2.users
            (fun v => v.role == Role.super_admin) (fun v => v.email == lowerStr te)
          have hmono : sys2.users.countP
                (fun v => (v.email == lowerStr te) && (v.role == Role.super_admin))
              ≤ sys2.users.countP (fun v => v.email == lowerStr te) := by
            refine List.countP_mono_left ?_
            intro v _ hv
            simp only [Bool.and_eq_true] at hv
            exact hv.1
          have hpos : 0 < sys2.users.countP
              (fun v => !(v.email == lowerStr te) && (v.role == Role.super_admin)) := by
            omega
          obtain ⟨v, hvmem, hv⟩ := List.countP_pos_iff.mp hpos
          simp only [Bool.and_eq_true] at hv
          exact ⟨v, hvmem, by simpa using hv.1, by simpa using hv.2⟩
        · have hdemail : demoter.email = lowerStr ae := by
            have := List.find?_some hd
            simpa using this
          refine ⟨demoter, List.mem_of_find?_eq_some hd, ?_, hdsup⟩
          rw [hdemail]
          simp [hae]
      · obtain ⟨v, hvmem, hv⟩ := List.countP_pos_iff.mp (by omega : 0 < sys2.users.countP
          (fun v => v.role == Role.super_admin))
        have hvsup : v.role = Role.super_admin := by simpa using hv
        by_cases hvte : (v.email == lowerStr te) = true
        · exfalso
          have hvne : v ≠ targetUser := by
            intro hEq
            rw [hEq] at hvsup
            exact hsupT hvsup
          have h2 := two_le_countP sys2.users (fun w => w.email == lowerStr te) v targetUser
            hvmem htmem hvne hvte (by simp [htemail])
          omega
        · exact ⟨v, hvmem, by simpa using hvte, hvsup⟩
    obtain ⟨v, hvmem, hvte, hvsup⟩ := hexists
    have : 0 < (demoteUpdatedUsers sys2.users te ae t2).countP
        (fun w => w.role == Role.super_admin) := by
      refine List.countP_pos_iff.mpr ?_
      refine ⟨if v.email == lowerStr te then demoteUpdate v ae t2 else v, ?_, ?_⟩
      · exact List.mem_map_of_mem _ hvmem
      · rw [hvte]
        simp [hvsup]
    omega

/-- Witness for C4: with a single super admin the self-demotion is
rejected untouched; with two super admins the same call succeeds. -/
theorem c4_sole_super_admin_lockout_witness :
    demoteAdminToUser sysSuperOnly noFaults "a@x" "a@x" none 0
      = (opErr "Cannot demote yourself as the only super admin", sysSuperOnly)
    ∧ (demoteAdminToUser sysTwoSupers noFaults "a@x" "a@x" none 0).1.success = true := by
  constructor
  · exact (c4_sole_super_admin_lockout sysSuperOnly "a@x" uSuperA none 0 (by decide)
      (by decide)).1 (by decide)
  · exact (c4_sole_super_admin_lockout sysTwoSupers "a@x" uSuperA none 0 (by decide)
      (by decide)).2.1 (by decide)

/-- Counterexample to claim C6 as stated: with only the audit sink down,
a promote whose role update already succeeded returns a failure result
(the audit error is surfaced as the generic failure), even though the
role change is kept — the call does not still report success. -/
theorem c6_counterexample :
    (promoteUserToAdmin sysSuperPlain auditOnlyFaults "a@x" "b@x" Role.admin none 5).1.success = false
    ∧ (findUserByEmail (promoteUserToAdmin sysSuperPlain auditOnlyFaults "a@x" "b@x" Role.admin none 5).2.users "b@x").map Account.role
        = some Role.admin := by
  refine ⟨by decide, by decide⟩

/-- Claim C6 (amended): if the role update fails (throws or matches
nothing), promote and demote write no audit entry, invalidate no
session, and leave the state untouched; if the update succeeds and the
audit write then fails, the role change is not rolled back and no
session invalidation happens, but the failure is surfaced to the caller
as the generic failure result rather than being absorbed. -/
theorem c6_failure_containment :
    (∀ (sys : Sys) (f : Faults) (ae te : String) (r : Role) (ip : Option String) (now : Int),
      f.updateThrows = true ∨ f.updateNull = true →
      (promoteUserToAdmin sys f ae te r ip now).1.success = false
      ∧ (promoteUserToAdmin sys f ae te r ip now).2 = sys)
    ∧ (∀ (sys : Sys) (f : Faults) (ae te : String) (ip : Option String) (now : Int),
      f.updateThrows = true ∨ f.updateNull = true →
      (demoteAdminToUser sys f ae te ip now).1.success = false
      ∧ (demoteAdminToUser sys f ae te ip now).2 = sys)
    ∧ (∀ (sys : Sys) (ae te : String) (r : Role) (ip : Option String) (now : Int)
        (promoter targetUser : Account),
        findUserByEmail sys.users ae = some promoter →
        privileged promoter.role = true →
        (r = Role.super_admin → promoter.role = Role.super_admin) →
        findUserByEmail sys.users te = some targetUser →
        targetUser.role ≠ r →
        ¬(lowerStr ae = lowerStr te ∧ r = Role.super_admin) →
        promoteUserToAdmin sys auditOnlyFaults ae te r ip now
          = (opErr "Failed to promote user",
             { sys with users := promoteUpdatedUsers sys.users te ae r now }))
    ∧ (∀ (sys : Sys) (ae te : String) (ip : Option String) (now : Int)
        (demoter targetUser : Account),
        findUserByEmail sys.users ae = some demoter →
        privileged demoter.role = true →
        findUserByEmail sys.users te = some targetUser →
        ¬(lowerStr ae = lowerStr te ∧ targetUser.role = Role.super_admin
          ∧ sys.users.countP (fun v => v.role == Role.super_admin) ≤ 1) →
        (targetUser.role = Role.super_admin → demoter.role = Role.super_admin) →
        targetUser.role ≠ Role.user →
        demoteAdminToUser sys auditOnlyFaults ae te ip now
          = (opErr "Failed to demote user",
             { sys with users := demoteUpdatedUsers sys.users te ae now })) := by
  refine ⟨?_, ?_, ?_, ?_⟩
  · intro sys f ae te r ip now hf
    unfold promoteUserToAdmin
    split
    · exact ⟨rfl, rfl⟩
    split
    · exact ⟨rfl, rfl⟩
    next promoter hp =>
    split
    · exact ⟨rfl, rfl⟩
    split
    · exact ⟨rfl, rfl⟩
    split
    · exact ⟨rfl, rfl⟩
    next targetUser ht =>
    split
    · exact ⟨rfl, rfl⟩
    split
    · exact ⟨rfl, rfl⟩
    split
    · exact ⟨rfl, rfl⟩
    next hut =>
    split
    · exact ⟨rfl, rfl⟩
    next hun =>
    exfalso
    rcases hf with h | h
    · exact hut (by simp [h])
    · exact hun (by simp [h])
  · intro sys f ae te ip now hf
    unfold demoteAdminToUser
    split
    · exact ⟨rfl, rfl⟩
    split
    · exact ⟨rfl, rfl⟩
    next demoter hd =>
    split
    · exact ⟨rfl, rfl⟩
    split
    · exact ⟨rfl, rfl⟩
    next targetUser ht =>
    split
    · exact ⟨rfl, rfl⟩
    split
    · exact ⟨rfl, rfl⟩
    split
    · exact ⟨rfl, rfl⟩
    split
    · exact ⟨rfl, rfl⟩
    next hut =>
    split
    · exact ⟨rfl, rfl⟩
    next hun =>
    exfalso
    rcases hf with h | h
    · exact hut (by simp [h])
    · exact hun (by simp [h])
  · intro sys ae te r ip now promoter targetUser hp hpriv hsup ht hne hself
    rw [promoteUserToAdmin_run sys auditOnlyFaults ae te r ip now promoter targetUser
      hp hpriv hsup ht hne hself rfl rfl rfl rfl]
    rfl
  · intro sys ae te ip now demoter targetUser hd hpriv ht hself hsd hnu
    rw [demoteAdminToUser_run sys auditOnlyFaults ae te ip now demoter targetUser
      hd hpriv ht hself hsd hnu rfl rfl rfl rfl]
    rfl

/-- Witness for C6: the concrete audit-down promote run. -/
theorem c6_failure_containment_witness :
    promoteUserToAdmin sysSuperPlain auditOnlyFaults "a@x" "b@x" Role.admin none 5
      = (opErr "Failed to promote user",
         { sysSuperPlain with users := promoteUpdatedUsers sysSuperPlain.users "b@x" "a@x" Role.admin 5 }) :=
  c6_failure_containment.2.2.1 sysSuperPlain "a@x" "b@x" Role.admin none 5 uSuperA uPlainB
    (by decide) (by decide) (fun hr => absurd hr (by decide)) (by decide) (by decide)
    (fun h => absurd h.2 (by decide))

/-- Counterexample to claim C7 as stated: promoting a target whose
original role is `admin` to `super_admin` and then demoting them sets
the role to `user`, which does not restore the original `admin` role. -/
theorem c7_counterexample :
    (promoteUserToAdmin sysSuperAdmin2 noFaults "a@x" "b@x" Role.super_admin none 5).1.success = true
    ∧ (demoteAdminToUser (promoteUserToAdmin sysSuperAdmin2 noFaults "a@x" "b@x" Role.super_admin none 5).2 noFaults "a@x" "b@x" none 6).1.success = true
    ∧ (findUserByEmail sysSuperAdmin2.users "b@x").map Account.role = some Role.admin
    ∧ (findUserByEmail (demoteAdminToUser (promoteUserToAdmin sysSuperAdmin2 noFaults "a@x" "b@x" Role.super_admin none 5).2 noFaults "a@x" "b@x" none 6).2.users "b@x").map Account.role = some Role.user
    ∧ some Role.user ≠ some Role.admin := by
  refine ⟨by decide, by decide, by decide, by decide, by decide⟩

/-- Claim C7 (amended): a successful promote immediately followed by a
successful demote of the same target sets the target role to `user` —
which restores the original role exactly when the target was an ordinary
user — and appends two distinct audit entries, a `USER_PROMOTED` one and
then a `USER_DEMOTED` one, rather than collapsing to a no-op. -/
theorem c7_promote_demote_roundtrip (sys : Sys) (ae te : String) (r : Role)
    (ip : Option String) (t1 t2 : Int) (promoter targetUser : Account)
    (hp : findUserByEmail sys.users ae = some promoter)
    (hpriv : promoter.role = Role.super_admin)
    (ht : findUserByEmail sys.users te = some targetUser)
    (hne : targetUser.role ≠ r)
    (hnr : r ≠ Role.user)
    (hsl : lowerStr ae ≠ lowerStr te) :
    (promoteUserToAdmin sys noFaults ae te r ip t1).1.success = true
    ∧ (demoteAdminToUser (promoteUserToAdmin sys noFaults ae te r ip t1).2 noFaults ae te ip t2).1.success = true
    ∧ (findUserByEmail (demoteAdminToUser (promoteUserToAdmin sys noFaults ae te r ip t1).2 noFaults ae te ip t2).2.users te).map Account.role
        = some Role.user
    ∧ (demoteAdminToUser (promoteUserToAdmin sys noFaults ae te r ip t1).2 noFaults ae te ip t2).2.audit
        = sys.audit ++ [promoteAuditEntry ae te targetUser.role r ip t1,
                        demoteAuditEntry ae te r ip t2]
    ∧ (promoteAuditEntry ae te targetUser.role r ip t1).action = AuditAction.USER_PROMOTED
    ∧ (demoteAuditEntry ae te r ip t2).action = AuditAction.USER_DEMOTED
    ∧ promoteAuditEntry ae te targetUser.role r ip t1 ≠ demoteAuditEntry ae te r ip t2
    ∧ (targetUser.role ≠ Role.user → some Role.user ≠ some targetUser.role) := by
  have hpb : privileged promoter.role = true := by simp [hpriv, privileged]
  have hpe : promoter.email = lowerStr ae := by
    have := List.find?_some hp
    simpa using this
  have hte : targetUser.email = lowerStr te := by
    have := List.find?_some ht
    simpa using this
  have hrun1 : promoteUserToAdmin sys noFaults ae te r ip t1
      = (opOk, { users := promoteUpdatedUsers sys.users te ae r t1
                 invitations := sys.invitations
                 audit := sys.audit ++ [promoteAuditEntry ae te targetUser.role r ip t1]
                 sessions := sessionsWithout sys.sessions targetUser.id }) := by
    rw [promoteUserToAdmin_run sys noFaults ae te r ip t1 promoter targetUser hp hpb
      (fun _ => hpriv) ht hne (fun h => hsl h.1) rfl rfl rfl rfl]
    rfl
  have hgp : ∀ u : Account,
      ((if u.email == lowerStr te then promoteUpdate u ae r t1 else u) : Account).email
        = u.email := by
    intro u
    split <;> rfl
  have hfind1 : ∀ x : String,
      findUserByEmail (promoteUpdatedUsers sys.users te ae r t1) x
        = (findUserByEmail sys.users x).map
            (fun u => if u.email == lowerStr te then promoteUpdate u ae r t1 else u) :=
    fun x => find?_map_email sys.users _ hgp x
  have hd2 : findUserByEmail (promoteUpdatedUsers sys.users te ae r t1) ae = some promoter := by
    rw [hfind1 ae, hp]
    simp [Option.map, hpe, hsl]
  have ht2 : findUserByEmail (promoteUpdatedUsers sys.users te ae r t1) te
      = some (promoteUpdate targetUser ae r t1) := by
    rw [hfind1 te, ht]
    simp [Option.map, hte]
  have hrole2 : (promoteUpdate targetUser ae r t1).role = r := rfl
  set st1 : Sys :=
    { users := promoteUpdatedUsers sys.users te ae r t1
      invitations := sys.invitations
      audit := sys.audit ++ [promoteAuditEntry ae te targetUser.role r ip t1]
      sessions := sessionsWithout sys.sessions targetUser.id } with hst1
  have hrun2 : demoteAdminToUser st1 noFaults ae te ip t2
      = (opOk, { users := demoteUpdatedUsers st1.users te ae t2
                 invitations := st1.invitations
                 audit := st1.audit ++ [demoteAuditEntry ae te r ip t2]
                 sessions := sessionsWithout st1.sessions (promoteUpdate targetUser ae r t1).id }) := by
    rw [demoteAdminToUser_run st1 noFaults ae te ip t2 promoter
      (promoteUpdate targetUser ae r t1) hd2 hpb ht2 (fun h => hsl h.1)
      (fun _ => hpriv) (by rw [hrole2]; exact hnr) rfl rfl rfl rfl]
    rfl
  have hgd : ∀ u : Account,
      ((if u.email == lowerStr te then demoteUpdate u ae t2 else u) : Account).email
        = u.email := by
    intro u
    split <;> rfl
  have hfind2a : findUserByEmail (demoteUpdatedUsers st1.users te ae t2) te
      = (findUserByEmail st1.users te).map
          (fun u => if u.email == lowerStr te then demoteUpdate u ae t2 else u) :=
    find?_map_email st1.users _ hgd te
  have ht2b : findUserByEmail st1.users te = some (promoteUpdate targetUser ae r t1) := ht2
  have hfind2 : findUserByEmail (demoteUpdatedUsers st1.users te ae t2) te
      = some (demoteUpdate (promoteUpdate targetUser ae r t1) ae t2) := by
    rw [hfind2a, ht2b]
    simp [Option.map, promoteUpdate, hte]
  refine ⟨by rw [hrun1]; rfl, ?_, ?_, ?_, rfl, rfl, ?_, ?_⟩
  · rw [hrun1]
    show (demoteAdminToUser st1 noFaults ae te ip t2).1.success = true
    rw [hrun2]
    rfl
  · rw [hrun1]
    show (findUserByEmail (demoteAdminToUser st1 noFaults ae te ip t2).2.users te).map Account.role
      = some Role.user
    rw [hrun2]
    show (findUserByEmail (demoteUpdatedUsers st1.users te ae t2) te).map Account.role
      = some Role.user
    rw [hfind2]
    rfl
  · rw [hrun1]
    show (demoteAdminToUser st1 noFaults ae te ip t2).2.audit = _
    rw [hrun2]
    show st1.audit ++ [demoteAuditEntry ae te r ip t2] = _
    rw [hst1]
    simp
  · intro hEq
    have := congrArg AuditEntry.action hEq
    simp [promoteAuditEntry, demoteAuditEntry, mkAudit] at this
  · intro h hEq
    injection hEq with hr2
    exact h hr2.symm

/-- Witness for C7 (amended) at a concrete super-admin actor and ordinary
target. -/
theorem c7_promote_demote_roundtrip_witness :
    (promoteUserToAdmin sysSuperPlain noFaults "a@x" "b@x" Role.admin none 5).1.success = true
    ∧ (demoteAdminToUser (promoteUserToAdmin sysSuperPlain noFaults "a@x" "b@x" Role.admin none 5).2 noFaults "a@x" "b@x" none 6).1.success = true := by
  have h := c7_promote_demote_roundtrip sysSuperPlain "a@x" "b@x" Role.admin none 5 6
    uSuperA uPlainB (by decide) (by decide) (by decide) (by decide) (by decide) (by decide)
  exact ⟨h.1, h.2.1⟩

/-- Helper: once any super admin exists, `bootstrapSuperAdmin` returns
the state untouched, whatever the configuration or faults. -/
theorem bootstrap_noop_of_super (sys : Sys) (f : Faults) (cfg : Config)
    (newId : String) (now : Int)
    (h : ∃ u ∈ sys.users, u.role = Role.super_admin) :
    bootstrapSuperAdmin sys f cfg newId now = sys := by
  obtain ⟨u, hmem, hrole⟩ := h
  have hs : (sys.users.find? (fun v => v.role == Role.super_admin)).isSome = true := by
    rw [List.find?_isSome]
    exact ⟨u, hmem, by simp [hrole]⟩
  unfold bootstrapSuperAdmin
  split
  · rfl
  split
  · rfl
  next e =>
  split
  · rfl
  simp [hs]

/-- Claim C8: `bootstrapSuperAdmin` is idempotent once a super admin
exists (a further run performs no mutation and writes no audit entry); a
first run with a configured bootstrap email and no existing super admin
either promotes the matching account or creates a new one with role
`super_admin`, provider `credentials` and provenance
`promotedBy = "system"`, and writes exactly one `USER_PROMOTED` audit
entry; running it again right after is then a no-op. -/
theorem c8_bootstrap_idempotent (sys : Sys) (f : Faults) (cfg : Config)
    (newId : String) (now : Int) :
    ((∃ u ∈ sys.users, u.role = Role.super_admin) →
      bootstrapSuperAdmin sys f cfg newId now = sys)
    ∧ (∀ e, cfg.superAdminEmail = some e →
        (∀ u ∈ sys.users, u.role ≠ Role.super_admin) →
        (bootstrapSuperAdmin sys noFaults cfg newId now).audit
          = sys.audit ++ [bootAuditEntry e now]
        ∧ (bootAuditEntry e now).action = AuditAction.USER_PROMOTED
        ∧ (∃ u ∈ (bootstrapSuperAdmin sys noFaults cfg newId now).users,
            u.email = lowerStr e ∧ u.role = Role.super_admin ∧ u.promotedBy = some "system")
        ∧ (findUserByEmail sys.users e = none →
            (bootstrapSuperAdmin sys noFaults cfg newId now).users
              = sys.users ++ [bootAccount newId e cfg.superAdminName now]
            ∧ (bootAccount newId e cfg.superAdminName now).provider = some "credentials"
            ∧ (bootAccount newId e cfg.superAdminName now).role = Role.super_admin
            ∧ (bootAccount newId e cfg.superAdminName now).promotedBy = some "system")
        ∧ (∀ (f2 : Faults) (newId2 : String) (now2 : Int),
            bootstrapSuperAdmin (bootstrapSuperAdmin sys noFaults cfg newId now) f2 cfg newId2 now2
              = bootstrapSuperAdmin sys noFaults cfg newId now)) := by
  constructor
  · exact bootstrap_noop_of_super sys f cfg newId now
  · intro e hce hnosuper
    have hnone : sys.users.find? (fun v => v.role == Role.super_admin) = none := by
      rw [List.find?_eq_none]
      intro u hu
      simp [hnosuper u hu]
    rcases hfe : findUserByEmail sys.users e with _ | u
    · have hbs : bootstrapSuperAdmin sys noFaults cfg newId now
          = { sys with users := sys.users ++ [bootAccount newId e cfg.superAdminName now],
                       audit := sys.audit ++ [bootAuditEntry e now] } := by
        simp [bootstrapSuperAdmin, noFaults, hce, hnone, hfe]
      refine ⟨by rw [hbs], rfl, ?_, ?_, ?_⟩
      · refine ⟨bootAccount newId e cfg.superAdminName now, ?_, rfl, rfl, rfl⟩
        rw [hbs]
        simp
      · intro _
        exact ⟨by rw [hbs], rfl, rfl, rfl⟩
      · intro f2 newId2 now2
        refine bootstrap_noop_of_super _ f2 cfg newId2 now2 ?_
        refine ⟨bootAccount newId e cfg.superAdminName now, ?_, rfl⟩
        rw [hbs]
        simp
    · have huemail : u.email = lowerStr e := by
        have := List.find?_some hfe
        simpa using this
      have hbs : bootstrapSuperAdmin sys noFaults cfg newId now
          = { sys with users := bootUpdatedUsers sys.users e now,
                       audit := sys.audit ++ [bootAuditEntry e now] } := by
        simp [bootstrapSuperAdmin, noFaults, hce, hnone, hfe]
      have humem : u ∈ sys.users := List.mem_of_find?_eq_some hfe
      have hpmem : bootPromotedAccount u now ∈ bootUpdatedUsers sys.users e now := by
        have h0 : bootPromotedAccount u now
            = (if u.email == lowerStr e then bootPromotedAccount u now else u) := by
          simp [huemail]
        rw [h0]
        exact List.mem_map_of_mem _ humem
      refine ⟨by rw [hbs], rfl, ?_, ?_, ?_⟩
      · refine ⟨bootPromotedAccount u now, ?_, huemail, rfl, rfl⟩
        rw [hbs]
        exact hpmem
      · intro hn
        exact absurd hn (by simp)
      · intro f2 newId2 now2
        refine bootstrap_noop_of_super _ f2 cfg newId2 now2 ?_
        refine ⟨bootPromotedAccount u now, ?_, rfl⟩
        rw [hbs]
        exact hpmem

/-- Witness for C8: a concrete first bootstrap run writes one audit
entry, and the immediate second run changes nothing. -/
theorem c8_bootstrap_idempotent_witness :
    (bootstrapSuperAdmin ⟨[uPlainB], [], [], []⟩ noFaults ⟨some "s@x", none⟩ "id5" 7).audit
      = (⟨[uPlainB], [], [], []⟩ : Sys).audit ++ [bootAuditEntry "s@x" 7]
    ∧ bootstrapSuperAdmin (bootstrapSuperAdmin ⟨[uPlainB], [], [], []⟩ noFaults ⟨some "s@x", none⟩ "id5" 7) noFaults ⟨some "s@x", none⟩ "id6" 8
        = bootstrapSuperAdmin ⟨[uPlainB], [], [], []⟩ noFaults ⟨some "s@x", none⟩ "id5" 7 := by
  have h := (c8_bootstrap_idempotent ⟨[uPlainB], [], [], []⟩ noFaults ⟨some "s@x", none⟩ "id5" 7).2
    "s@x" rfl (by decide)
  exact ⟨h.1, h.2.2.2.2 noFaults "id6" 8⟩

/-- Claim C9: `checkAndGetUserRole` is a total function of the modelled
faults (it never propagates a throw) and returns the default role `user`
on any store or audit error; in particular, when the audit write fails
after the invitation was already marked used and saved, the caller still
receives `user` while the invitation stays consumed — consumption and
role grant are not atomic. -/
theorem c9_role_check_absorbs_faults (sys : Sys) (email : String) (now : Int) :
    (∀ f : Faults, f.connectFails = true ∨ f.findFails = true →
      checkAndGetUserRole sys f email now = (Role.user, sys))
    ∧ (∀ (f : Faults) inv, findUserByEmail sys.users email = none →
        findValidInvitation sys.invitations email now = some inv →
        f.connectFails = false → f.findFails = false → f.saveFails = true →
        checkAndGetUserRole sys f email now = (Role.user, sys))
    ∧ (∀ inv, findUserByEmail sys.users email = none →
        findValidInvitation sys.invitations email now = some inv →
        (checkAndGetUserRole sys auditOnlyFaults email now).1 = Role.user
        ∧ (checkAndGetUserRole sys auditOnlyFaults email now).2.audit = sys.audit
        ∧ (checkAndGetUserRole sys auditOnlyFaults email now).2.invitations
            = markInvitationUsed sys.invitations inv now
        ∧ (∀ j ∈ markInvitationUsed sys.invitations inv now,
            j.invitationToken = inv.invitationToken → j.isUsed = true)) := by
  refine ⟨?_, ?_, ?_⟩
  · intro f hf
    rcases hf with h | h <;> simp [checkAndGetUserRole, h]
  · intro f inv hnone hinv h1 h2 h3
    simp [checkAndGetUserRole, hnone, hinv, h1, h2, h3]
  · intro inv hnone hinv
    refine ⟨?_, ?_, ?_, ?_⟩
    · simp [checkAndGetUserRole, auditOnlyFaults, hnone, hinv]
    · simp [checkAndGetUserRole, auditOnlyFaults, hnone, hinv]
    · simp [checkAndGetUserRole, auditOnlyFaults, hnone, hinv]
    · intro j hj htok
      obtain ⟨i, hi, hmap⟩ := List.mem_map.mp hj
      by_cases hc : (i.invitationToken == inv.invitationToken) = true
      · rw [if_pos hc] at hmap
        rw [← hmap]
        exact (preSaveInvitation_fields _ _).1
      · rw [if_neg hc] at hmap
        rw [← hmap] at htok
        exact absurd (by simp [htok]) hc

/-- Witness for C9: a concrete audit-down invitation sign-in yields the
default role while the invitation list is the consumed one. -/
theorem c9_role_check_absorbs_faults_witness :
    (checkAndGetUserRole sysWithInvite auditOnlyFaults "d@x" 10).1 = Role.user
    ∧ (checkAndGetUserRole sysWithInvite auditOnlyFaults "d@x" 10).2.audit = sysWithInvite.audit := by
  have h := (c9_role_check_absorbs_faults sysWithInvite "d@x" 10).2.2 invForD (by decide) (by decide)
  exact ⟨h.1, h.2.1⟩

end ErrandMate
